import Mathlib

/-!
Verification of the kernel-output aggregation pipeline of
`mage_ai/frontend` (`api/index.ts` / the `CodeOutput` component and
`interfaces/KernelOutputType.ts`).

The definitions below are a shallow embedding of the TypeScript source:
JavaScript strings are `String`, JS `undefined` is `Option.none`, code that
can throw a `TypeError` returns `Except String`, and JS value coercions
(`array + string`, `undefined + string`) are spelled out explicitly.
-/

/-- `DataTypeEnum` from `interfaces/KernelOutputType.ts`. -/
inductive DataTypeEnum where
  | IMAGE_PNG
  | TABLE
  | TEXT
  | TEXT_PLAIN
deriving DecidableEq, Repr, Inhabited

/-- `DATA_TYPE_TEXTLIKE` from `interfaces/KernelOutputType.ts`. -/
def DATA_TYPE_TEXTLIKE : List DataTypeEnum :=
  [DataTypeEnum.TEXT, DataTypeEnum.TEXT_PLAIN]

/-- The `data` field of a kernel output message: `string | string[]`. -/
inductive KData where
  | str (s : String)
  | arr (l : List String)
deriving DecidableEq, Repr, Inhabited

/-- `KernelOutputType` from `interfaces/KernelOutputType.ts`, restricted to the
fields the `CodeOutput` component reads (`type` and the optional `data`). -/
structure KernelOutputType where
  type : DataTypeEnum
  data : Option KData
deriving DecidableEq, Repr, Inhabited

/-- Line 339: `combineTextData` applied to a defined value:
`Array.isArray(data) ? data.join(newline) : data`. -/
def combineTextDataV : KData → String
  | KData.arr l => String.intercalate "\n" l
  | KData.str s => s

/-- `combineTextData` including the JS `undefined` case: `combineTextData(undefined)`
evaluates to `undefined` (none). -/
def combineTextData : Option KData → Option String
  | some d => some (combineTextDataV d)
  | none => none

/-- The characters of the literal internal-output marker matched by
`internalOutputRegex` (line 338). -/
def internalOutputMarker : List Char := "[__internal_output__]".data

/-- Whether `pat` is an initial segment of `l`. -/
def listStartsWith (pat l : List Char) : Bool :=
  match pat, l with
  | [], _ => true
  | p :: ps, c :: cs => p == c && listStartsWith ps cs
  | _ :: _, [] => false

/-- Whether the marker occurs anywhere in `l`. -/
def containsMarkerL : List Char → Bool
  | [] => false
  | c :: t => listStartsWith internalOutputMarker (c :: t) || containsMarkerL t

/-- JS `s.match(internalOutputRegex)` tested for success: the regex is the
literal string `[__internal_output__]`, so this is a substring test. -/
def containsMarker (s : String) : Bool := containsMarkerL s.data

/-- Remove the first occurrence of the marker from `l` (the regex has no `g`
flag, so JS `String.replace` removes only the first occurrence). -/
def dropMarkerOnce : List Char → List Char
  | [] => []
  | c :: t =>
    if listStartsWith internalOutputMarker (c :: t) then
      (c :: t).drop internalOutputMarker.length
    else c :: dropMarkerOnce t

/-- Line 396: `data.replace(internalOutputRegex, emptyString)`. -/
def replaceMarkerFirst (s : String) : String := String.mk (dropMarkerOnce s.data)

/-- JS `DATA_TYPE_TEXTLIKE.includes(t)` where `t` may be `undefined`
(`includes(undefined)` is `false`). -/
def isTextLikeOpt : Option DataTypeEnum → Bool
  | some t => decide (t ∈ DATA_TYPE_TEXTLIKE)
  | none => false

/-- JS `last.data += s` (line 347): `string + string` concatenates,
`array + string` coerces the array via `join(comma)`, and
`undefined + string` coerces `undefined` to the text `undefined`. -/
def jsPlusData : Option KData → String → KData
  | some (KData.str a), s => KData.str (a ++ s)
  | some (KData.arr l), s => KData.str (String.intercalate "," l ++ s)
  | none, s => KData.str ("undefined" ++ s)

/-- Mutate the last accumulator entry in place (line 347):
`last.data += combineTextData(curr.data)` where `s` is the combined text. -/
def mutateLast (acc : List KernelOutputType) (s : String) : List KernelOutputType :=
  match acc.getLast? with
  | none => acc
  | some last =>
    acc.dropLast ++ [{ last with data := some (jsPlusData last.data s) }]

/-- One step of the reduce at lines 341-358.  `condLast` is
`DATA_TYPE_TEXTLIKE.includes(last?.type) && last?.type === curr.type`,
`condCurr` is `DATA_TYPE_TEXTLIKE.includes(curr?.type)`.  The shared
sub-expression `combineTextData(curr?.data).match(internalOutputRegex)` is
evaluated by JS exactly when `condLast` or `condCurr` holds (short-circuit
`&&`, and `condLast` implies `condCurr`); it throws a `TypeError` when
`curr.data` is `undefined`.  Pushes copy the message (`spread curr`), so the
accumulator never aliases an input object. -/
def aggStep (acc : List KernelOutputType) (curr : KernelOutputType) :
    Except String (List KernelOutputType) :=
  let last := acc.getLast?
  let condLast := isTextLikeOpt (last.map KernelOutputType.type) &&
    decide (last.map KernelOutputType.type = some curr.type)
  let condCurr := decide (curr.type ∈ DATA_TYPE_TEXTLIKE)
  if condLast || condCurr then
    match combineTextData curr.data with
    | none => Except.error "TypeError: Cannot read properties of undefined"
    | some s =>
      if condLast && !containsMarker s then
        Except.ok (mutateLast acc s)
      else if condCurr && !containsMarker s then
        Except.ok (acc ++ [{ curr with data := some (KData.str s) }])
      else
        Except.ok (acc ++ [curr])
  else
    Except.ok (acc ++ [curr])

/-- The reduce loop of `combinedMessages` (lines 341-361). -/
def combinedMessagesAux (acc : List KernelOutputType) :
    List KernelOutputType → Except String (List KernelOutputType)
  | [] => Except.ok acc
  | m :: rest =>
    match aggStep acc m with
    | Except.error e => Except.error e
    | Except.ok acc2 => combinedMessagesAux acc2 rest

/-- `combinedMessages` (lines 341-361): `messages.reduce(step, [])`. -/
def combinedMessages (messages : List KernelOutputType) :
    Except String (List KernelOutputType) :=
  combinedMessagesAux [] messages

/-- Line 310: `const primaryDataType = messages[0].type` — reading `.type` of
`messages[0]` throws a `TypeError` when the message list is empty. -/
def primaryDataType (messages : List KernelOutputType) : Except String DataTypeEnum :=
  match messages with
  | [] => Except.error "TypeError: Cannot read properties of undefined"
  | m :: _ => Except.ok m.type

/-- Modelled from the spec: `StatusTypeEnum` lives in
`interfaces/BlockType.ts`, which is not under `src/`; the component only
compares the persisted block status against `executed`
(`StatusTypeEnum.EXECUTED === status`), so the status is modelled by its
string value. -/
def STATUS_EXECUTED : String := "executed"

/-- Lines 309-313: `numberOfMessages` and the `executedAndIdle` disjunction. -/
def executedAndIdle (status : String) (isInProgress : Bool) (runCount : Int)
    (messages : List KernelOutputType) (runEndTime runStartTime : Int) : Bool :=
  let numberOfMessages := messages.length
  decide (STATUS_EXECUTED = status) ||
    (!isInProgress && decide (runCount = 0) && decide (1 ≤ numberOfMessages)) ||
    (!isInProgress && decide (1 ≤ runCount) && decide (runStartTime ≤ runEndTime))

/-- Modelled from the spec: JSON values as produced by `JSON.parse` (the
parser and `isJsonString` from `utils/string` are not under `src/`); the spec
only requires parsing a JSON object with fields `data` and `type`.  Numbers
are modelled as integers, which covers every payload the spec describes. -/
inductive Json where
  | null
  | bool (bv : Bool)
  | num (iv : Int)
  | str (sv : String)
  | arr (items : List Json)
  | obj (props : List (String × Json))
deriving Repr, Inhabited

/-- Skip JSON whitespace. -/
def skipWs : List Char → List Char
  | [] => []
  | c :: t => if c = ' ' ∨ c = '\n' ∨ c = '\t' ∨ c = '\r' then skipWs t else c :: t

/-- Decode a single-character JSON escape (quote, backslash, slash, and the
control-character escapes `n`, `t`, `r`, `b`, `f`). -/
def escapeChar (c : Char) : Option Char :=
  if c = '"' ∨ c = '\\' ∨ c = '/' then some c
  else if c = 'n' then some (Char.ofNat 10)
  else if c = 't' then some (Char.ofNat 9)
  else if c = 'r' then some (Char.ofNat 13)
  else if c = 'b' then some (Char.ofNat 8)
  else if c = 'f' then some (Char.ofNat 12)
  else none

/-- Parse the body of a JSON string after the opening quote; returns the
string characters and the rest after the closing quote. -/
def parseStringBody : List Char → Option (List Char × List Char)
  | [] => none
  | '"' :: t => some ([], t)
  | '\\' :: e :: t =>
    match escapeChar e with
    | none => none
    | some c =>
      match parseStringBody t with
      | none => none
      | some (s, r) => some (c :: s, r)
  | c :: t =>
    match parseStringBody t with
    | none => none
    | some (s, r) => some (c :: s, r)

/-- Take a run of decimal digits. -/
def takeDigits : List Char → List Char × List Char
  | [] => ([], [])
  | c :: t =>
    if c.isDigit then
      match takeDigits t with
      | (d, r) => (c :: d, r)
    else ([], c :: t)

/-- Decimal digits to a natural number. -/
def digitsToNat (l : List Char) : Nat :=
  l.foldl (fun a c => a * 10 + (c.toNat - 48)) 0

/-- Parse a JSON integer (optionally negative). -/
def parseNumberJ : List Char → Option (Json × List Char)
  | '-' :: t =>
    match takeDigits t with
    | ([], _) => none
    | (ds, r) => some (Json.num (-(Int.ofNat (digitsToNat ds))), r)
  | l =>
    match takeDigits l with
    | ([], _) => none
    | (ds, r) => some (Json.num (Int.ofNat (digitsToNat ds)), r)

/-- Requests of the fuel-driven recursive-descent JSON parser. -/
inductive PReq where
  | value (l : List Char)
  | arrBody (l : List Char)
  | arrTail (acc : List Json) (l : List Char)
  | objBody (l : List Char)
  | member (l : List Char)
  | objTail (acc : List (String × Json)) (l : List Char)

/-- Results of the recursive-descent JSON parser. -/
inductive PRes where
  | val (j : Json) (rest : List Char)
  | mem (m : String × Json) (rest : List Char)

/-- One fuelled dispatch of the recursive-descent JSON parser.  Structural
recursion on the fuel keeps every call kernel-reducible. -/
def parseStep : Nat → PReq → Option PRes
  | 0, _ => none
  | Nat.succ fuel, req =>
    match req with
    | PReq.value l =>
      match skipWs l with
      | [] => none
      | '"' :: t =>
        match parseStringBody t with
        | none => none
        | some (s, r) => some (PRes.val (Json.str (String.mk s)) r)
      | '{' :: t => parseStep fuel (PReq.objBody (skipWs t))
      | '[' :: t => parseStep fuel (PReq.arrBody (skipWs t))
      | 't' :: t2 =>
        if listStartsWith "rue".data t2 then some (PRes.val (Json.bool true) (t2.drop 3))
        else none
      | 'f' :: t2 =>
        if listStartsWith "alse".data t2 then some (PRes.val (Json.bool false) (t2.drop 4))
        else none
      | 'n' :: t2 =>
        if listStartsWith "ull".data t2 then some (PRes.val Json.null (t2.drop 3))
        else none
      | l2 =>
        match parseNumberJ l2 with
        | none => none
        | some (j, r) => some (PRes.val j r)
    | PReq.arrBody l =>
      match l with
      | ']' :: t => some (PRes.val (Json.arr []) t)
      | _ =>
        match parseStep fuel (PReq.value l) with
        | some (PRes.val v r) => parseStep fuel (PReq.arrTail [v] r)
        | _ => none
    | PReq.arrTail acc l =>
      match skipWs l with
      | ',' :: t =>
        match parseStep fuel (PReq.value t) with
        | some (PRes.val v r) => parseStep fuel (PReq.arrTail (acc ++ [v]) r)
        | _ => none
      | ']' :: t => some (PRes.val (Json.arr acc) t)
      | _ => none
    | PReq.objBody l =>
      match l with
      | '}' :: t => some (PRes.val (Json.obj []) t)
      | _ =>
        match parseStep fuel (PReq.member l) with
        | some (PRes.mem m r) => parseStep fuel (PReq.objTail [m] r)
        | _ => none
    | PReq.member l =>
      match skipWs l with
      | '"' :: t =>
        match parseStringBody t with
        | none => none
        | some (k, r) =>
          match skipWs r with
          | ':' :: r2 =>
            match parseStep fuel (PReq.value r2) with
            | some (PRes.val v r3) => some (PRes.mem (String.mk k, v) r3)
            | _ => none
          | _ => none
      | _ => none
    | PReq.objTail acc l =>
      match skipWs l with
      | ',' :: t =>
        match parseStep fuel (PReq.member t) with
        | some (PRes.mem m r) => parseStep fuel (PReq.objTail (acc ++ [m]) r)
        | _ => none
      | '}' :: t => some (PRes.val (Json.obj acc) t)
      | _ => none

/-- Modelled from the spec: `JSON.parse` — parse a whole string as one JSON
value (trailing whitespace allowed, anything else rejected). -/
def parseJson (s : String) : Option Json :=
  match parseStep (2 * s.data.length + 16) (PReq.value s.data) with
  | some (PRes.val j r) => if skipWs r = [] then some j else none
  | _ => none

/-- Modelled from the spec: `isJsonString` from `utils/string` (not under
`src/`) — whether `JSON.parse` succeeds on the string. -/
def isJsonString (s : String) : Bool := (parseJson s).isSome

/-- JS property access `o.k`: a field of an object, `undefined` (none) for a
missing field or a non-object receiver.  JS object literals keep the last
duplicate key, hence the reverse lookup. -/
def jsGet : Json → String → Option Json
  | Json.obj fields, k => fields.reverse.lookup k
  | _, _ => none

/-- JS `v.length`: string or array length, a `TypeError` on `null`, and
`undefined` (none) on other values. -/
def jsLength : Json → Except String (Option Nat)
  | Json.null => Except.error "TypeError: Cannot read length of null"
  | Json.str s => Except.ok (some s.length)
  | Json.arr l => Except.ok (some l.length)
  | _ => Except.ok none

/-- A render instruction handed to the presentation layer: the `Ansi` text
row (with its boundary props from `outputRowSharedProps`), the `DataTable`
element, or the base64 `img` element. -/
inductive RenderInstruction where
  | AnsiText (text : String) (first last : Bool)
  | Table (columns : Option Json) (index : Option Json) (rows : Json)
  | Image (data : String)
deriving Repr, Inhabited

/-- `createDataTableElement` (lines 315-336): the argument is destructured
as `columns`, `index`, `rows`; destructuring `undefined` or `null` throws,
`rows.length` throws on `undefined` or `null` rows, and the `DataTable`
element is produced only when `rows.length >= 1`. -/
def createDataTableBody (j : Json) : Except String (Option RenderInstruction) :=
  match jsGet j "rows" with
  | none => Except.error "TypeError: Cannot read length of undefined"
  | some rows =>
    match jsLength rows with
    | Except.error e => Except.error e
    | Except.ok none => Except.ok none
    | Except.ok (some n) =>
      if 1 ≤ n then
        Except.ok (some (RenderInstruction.Table (jsGet j "columns") (jsGet j "index") rows))
      else
        Except.ok none

def createDataTableElement : Option Json → Except String (Option RenderInstruction)
  | none => Except.error "TypeError: Cannot destructure"
  | some Json.null => Except.error "TypeError: Cannot destructure"
  | some j => createDataTableBody j

/-- JS `DataTypeEnum.TABLE === typeDisplay` (line 403): true exactly when the
parsed `type` field is the string `table`. -/
def isTableTypeJson : Option Json → Bool
  | some (Json.str t) => decide (t = "table")
  | _ => false

/-- Classification of one payload fragment (lines 388-428): the
internal-marker unwrap path, the `table` path, the text-like `Ansi` path and
the `image/png` path; any fragment that sets no `displayElement` produces no
render instruction. -/
def classifyFragment (dataType : DataTypeEnum) (first last : Bool) (data : String) :
    Except String (Option RenderInstruction) :=
  if containsMarker data then
    if isJsonString (replaceMarkerFirst data) then
      match parseJson (replaceMarkerFirst data) with
      | some Json.null => Except.error "TypeError: Cannot destructure"
      | some j =>
        if isTableTypeJson (jsGet j "type") then
          createDataTableElement (jsGet j "data")
        else
          Except.ok none
      | none => Except.ok none
    else
      Except.ok none
  else if decide (dataType = DataTypeEnum.TABLE) then
    if isJsonString data then
      match parseJson data with
      | some j => createDataTableElement (some j)
      | none => Except.ok none
    else
      createDataTableElement (some (Json.str data))
  else if decide (dataType ∈ DATA_TYPE_TEXTLIKE) then
    Except.ok (some (RenderInstruction.AnsiText data first last))
  else if decide (dataType = DataTypeEnum.IMAGE_PNG) then
    Except.ok (some (RenderInstruction.Image data))
  else
    Except.ok none

/-- `dataInit` normalised to an array (lines 379-384). -/
def dataToArray : Option KData → List String
  | some (KData.arr l) => l
  | some (KData.str s) => [s]
  | none => []

/-- Line 375: `!dataInit || dataInit?.length === 0` — skip a display entry
whose payload is missing, the empty string, or an empty array. -/
def skipEntryData : Option KData → Bool
  | none => true
  | some (KData.str s) => decide (s = "")
  | some (KData.arr l) => decide (l = [])

/-- The inner `dataArray.map` (lines 388-435): classify each fragment, with
`outputRowSharedProps` computed from the entry index `idx` against the RAW
message count `numberOfMessages` and the fragment index `idxInner` against
the filtered fragment count `dataArrayLength` (lines 390-393). -/
def classifyFragments (dataType : DataTypeEnum) (numberOfMessages idx dataArrayLength : Nat) :
    Nat → List String → Except String (List RenderInstruction)
  | _, [] => Except.ok []
  | idxInner, d :: rest =>
    match classifyFragment dataType
        (decide (idx = 0) && decide (idxInner = 0))
        (decide ((idx : Int) = (numberOfMessages : Int) - 1) &&
          decide ((idxInner : Int) = (dataArrayLength : Int) - 1)) d with
    | Except.error e => Except.error e
    | Except.ok inst =>
      match classifyFragments dataType numberOfMessages idx dataArrayLength (idxInner + 1) rest with
      | Except.error e => Except.error e
      | Except.ok more =>
        match inst with
        | none => Except.ok more
        | some i => Except.ok (i :: more)

/-- Classification of one display entry (lines 371-435): skip a missing or
empty payload, filter out falsy (empty) fragments, then classify each
remaining fragment. -/
def classifyEntry (numberOfMessages idx : Nat) (entry : KernelOutputType) :
    Except String (List RenderInstruction) :=
  if skipEntryData entry.data then
    Except.ok []
  else
    let dataArray := (dataToArray entry.data).filter (fun d => !(d == ""))
    classifyFragments entry.type numberOfMessages idx dataArray.length 0 dataArray

/-- Classification of the display entries in order, tracking the entry
index `idx`. -/
def classifyEntries (numberOfMessages : Nat) : Nat → List KernelOutputType →
    Except String (List RenderInstruction)
  | _, [] => Except.ok []
  | idx, e :: rest =>
    match classifyEntry numberOfMessages idx e with
    | Except.error e2 => Except.error e2
    | Except.ok insts =>
      match classifyEntries numberOfMessages (idx + 1) rest with
      | Except.error e2 => Except.error e2
      | Except.ok more => Except.ok (insts ++ more)

/-- The full pipeline of the `CodeOutput` render body: aggregate the raw
messages into `combinedMessages`, then classify every display entry, with
`numberOfMessages` the RAW message count (line 309). -/
def classifyAll (messages : List KernelOutputType) :
    Except String (List RenderInstruction) :=
  match combinedMessages messages with
  | Except.error e => Except.error e
  | Except.ok combined => classifyEntries messages.length 0 combined

/-- The exact unwrap-law payload with array-shaped `data` and type `table`. -/
def tablePayloadArr : String :=
  "[__internal_output__]\x7b\"data\":[[\"a\",\"b\"]],\"type\":\"table\"\x7d"

/-- The unwrap-law payload with type `text` instead of `table`. -/
def textPayloadArr : String :=
  "[__internal_output__]\x7b\"data\":[[\"a\",\"b\"]],\"type\":\"text\"\x7d"

/-- A tagged table payload whose inner `data` has the object shape
`createDataTableElement` destructures, with rows `[[a, b]]`. -/
def tablePayloadObj : String :=
  "[__internal_output__]\x7b\"data\":\x7b\"rows\":[[\"a\",\"b\"]]\x7d,\"type\":\"table\"\x7d"

/-- A tagged table payload whose rows list is empty. -/
def tablePayloadZeroRows : String :=
  "[__internal_output__]\x7b\"data\":\x7b\"rows\":[]\x7d,\"type\":\"table\"\x7d"

/-!
A mutable-heap view of the reduce, for the no-mutation / re-run claim.
`Store` is a JS heap of `KernelOutputType` objects; the `messages` array
holds references (indices) into it.  `spread curr` allocates a fresh cell at
the end of the store and `last.data += s` writes the cell the last
accumulator reference points at.
-/

/-- A JS heap of kernel-output objects. -/
abbrev Store := List KernelOutputType

/-- Dereference a heap cell. -/
def readCell (st : Store) (i : Nat) : KernelOutputType := st.getD i default

/-- One step of the reduce over the heap: identical branch structure to
`aggStep`, but the accumulator holds references and the merge branch mutates
the referenced cell in place. -/
def stepStore (acc : Store × List Nat) (i : Nat) : Except String (Store × List Nat) :=
  let st := acc.1
  let idxs := acc.2
  let curr := readCell st i
  let last := idxs.getLast?.map (readCell st)
  let condLast := isTextLikeOpt (last.map KernelOutputType.type) &&
    decide (last.map KernelOutputType.type = some curr.type)
  let condCurr := decide (curr.type ∈ DATA_TYPE_TEXTLIKE)
  if condLast || condCurr then
    match combineTextData curr.data with
    | none => Except.error "TypeError: Cannot read properties of undefined"
    | some s =>
      if condLast && !containsMarker s then
        match idxs.getLast? with
        | none => Except.ok (st, idxs)
        | some j =>
          let old := readCell st j
          Except.ok (st.set j { old with data := some (jsPlusData old.data s) }, idxs)
      else if condCurr && !containsMarker s then
        Except.ok (st ++ [{ curr with data := some (KData.str s) }], idxs ++ [st.length])
      else
        Except.ok (st ++ [curr], idxs ++ [st.length])
  else
    Except.ok (st ++ [curr], idxs ++ [st.length])

/-- The reduce loop over the heap. -/
def runStoreAux (acc : Store × List Nat) : List Nat → Except String (Store × List Nat)
  | [] => Except.ok acc
  | i :: rest =>
    match stepStore acc i with
    | Except.error e => Except.error e
    | Except.ok acc2 => runStoreAux acc2 rest

/-- Run the reduce over heap `st` on the message references `ids`,
starting from an empty accumulator, returning the final heap and the
accumulator references. -/
def runStore (st : Store) (ids : List Nat) : Except String (Store × List Nat) :=
  runStoreAux (st, []) ids

/-!
The contribution of each input message to the output, for the
order-preservation claim: the output of the reduce is described by a
partition of the input into consecutive non-empty groups.
-/

/-- The display entry a message starts (the two push branches of the
reduce): a text-like, unmarked message is pushed with its combined text,
anything else is pushed as a plain copy. -/
def initEntry (m : KernelOutputType) : KernelOutputType :=
  match combineTextData m.data with
  | some s =>
    if decide (m.type ∈ DATA_TYPE_TEXTLIKE) && !containsMarker s then
      { m with data := some (KData.str s) }
    else m
  | none => m

/-- Merging one further message into an existing display entry (the
`last.data += combineTextData(curr.data)` branch). -/
def mergeInto (e m : KernelOutputType) : KernelOutputType :=
  match combineTextData m.data with
  | some s => { e with data := some (jsPlusData e.data s) }
  | none => e

/-- The display entry produced by a group of adjacent messages: the head
starts the entry and every later member of the group is merged in. -/
def entryOfGroup (h : KernelOutputType) (rest : List KernelOutputType) : KernelOutputType :=
  rest.foldl mergeInto (initEntry h)

/-- Flatten a list of (head, rest) groups back into the message sequence. -/
def flattenGroups (gs : List (KernelOutputType × List KernelOutputType)) :
    List KernelOutputType :=
  (gs.map (fun g => g.1 :: g.2)).flatten

/-- C1: two adjacent text-like messages of the same outputType, neither of
whose combined texts contains the internal marker, aggregate into exactly
one display entry whose text is the concatenation of the two combined
texts. -/
theorem merge_law (m1 m2 : KernelOutputType) (d1 d2 : KData)
    (h1 : m1.data = some d1) (h2 : m2.data = some d2)
    (ht1 : m1.type ∈ DATA_TYPE_TEXTLIKE)
    (hty : m1.type = m2.type)
    (hn1 : containsMarker (combineTextDataV d1) = false)
    (hn2 : containsMarker (combineTextDataV d2) = false) :
    combinedMessages [m1, m2] =
      Except.ok [⟨m1.type, some (KData.str (combineTextDataV d1 ++ combineTextDataV d2))⟩] := by
  simp [combinedMessages, combinedMessagesAux, aggStep, combineTextData, h1, h2,
    isTextLikeOpt, ht1, ← hty, hn1, hn2, mutateLast, jsPlusData, List.getLast?]

/-- C1 witness: the merge law at two concrete text messages. -/
theorem merge_law_witness :
    combinedMessages [⟨DataTypeEnum.TEXT, some (KData.str "a")⟩,
      ⟨DataTypeEnum.TEXT, some (KData.str "b")⟩] =
      Except.ok [⟨DataTypeEnum.TEXT, some (KData.str "ab")⟩] := by
  have h := merge_law ⟨DataTypeEnum.TEXT, some (KData.str "a")⟩
    ⟨DataTypeEnum.TEXT, some (KData.str "b")⟩ (KData.str "a") (KData.str "b")
    rfl rfl (by decide) rfl (by rfl) (by rfl)
  exact h

/-- C2 counterexample: a message whose text is exactly the internal marker is
NOT isolated — the following untagged text message of the same type is
coalesced into its entry, leaving a single merged display entry. -/
theorem isolation_law_counterexample :
    combinedMessages [⟨DataTypeEnum.TEXT, some (KData.str "[__internal_output__]")⟩,
      ⟨DataTypeEnum.TEXT, some (KData.str "x")⟩] =
      Except.ok [⟨DataTypeEnum.TEXT, some (KData.str "[__internal_output__]x")⟩] := rfl

/-- C2 amended: a message whose combined text contains the internal marker is
never appended into a preceding entry — processing it always pushes a fresh
copy of the message as its own new display entry (later untagged text-like
messages of the same type may still be appended into that entry, as the
counterexample shows). -/
theorem tagged_message_starts_new_entry (acc : List KernelOutputType)
    (curr : KernelOutputType) (d : KData)
    (hd : curr.data = some d)
    (htag : containsMarker (combineTextDataV d) = true) :
    aggStep acc curr = Except.ok (acc ++ [curr]) := by
  unfold aggStep
  simp [hd, combineTextData, htag]

/-- C2 witness: the amended isolation law at a concrete tagged message. -/
theorem tagged_message_starts_new_entry_witness :
    aggStep [⟨DataTypeEnum.TEXT, some (KData.str "before")⟩]
      ⟨DataTypeEnum.TEXT, some (KData.str "[__internal_output__]")⟩ =
      Except.ok [⟨DataTypeEnum.TEXT, some (KData.str "before")⟩,
        ⟨DataTypeEnum.TEXT, some (KData.str "[__internal_output__]")⟩] := by
  have h := tagged_message_starts_new_entry
    [⟨DataTypeEnum.TEXT, some (KData.str "before")⟩]
    ⟨DataTypeEnum.TEXT, some (KData.str "[__internal_output__]")⟩
    (KData.str "[__internal_output__]") rfl (by rfl)
  exact h

/-- C3 counterexample: on the exact unwrap-law payload
`[__internal_output__]` + JSON with array-shaped `data` and type `table`,
classification does not emit a Table instruction — destructuring `rows` out
of the array yields `undefined` and `rows.length` raises a TypeError. -/
theorem unwrap_law_counterexample :
    classifyAll [⟨DataTypeEnum.TEXT, some (KData.str tablePayloadArr)⟩] =
      Except.error "TypeError: Cannot read length of undefined" := rfl

/-- C3 amended: on the unwrap-law payload with array-shaped `data` and type
`table`, classification raises a TypeError instead of rendering; a single
Table instruction with rows `[[a, b]]` is emitted when the inner `data` has
the object shape with a `rows` field; and with type `text` the fragment
yields zero instructions and no error. -/
theorem unwrap_law_amended :
    classifyAll [⟨DataTypeEnum.TEXT, some (KData.str tablePayloadArr)⟩] =
      Except.error "TypeError: Cannot read length of undefined" ∧
    classifyAll [⟨DataTypeEnum.TEXT, some (KData.str tablePayloadObj)⟩] =
      Except.ok [RenderInstruction.Table none none
        (Json.arr [Json.arr [Json.str "a", Json.str "b"]])] ∧
    classifyAll [⟨DataTypeEnum.TEXT, some (KData.str textPayloadArr)⟩] =
      Except.ok [] := ⟨rfl, rfl, rfl⟩

/-- C4: on the pure-stream-merge scenario the single AnsiText instruction
carries `first = true` but `last = FALSE`, because line 392 compares the
display-entry index (0) against the RAW message count minus one (1), not
against the number of display entries. -/
theorem stream_merge_last_flag :
    classifyAll [⟨DataTypeEnum.TEXT, some (KData.str "Hello ")⟩,
      ⟨DataTypeEnum.TEXT, some (KData.str "World")⟩] =
      Except.ok [RenderInstruction.AnsiText "Hello World" true false] := rfl

/-- C5: the execution-finished decision is true exactly when the status is
`executed`, or the run is idle with zero run count and at least one message,
or the run is idle with a positive run count and an end time at or after the
start time; and the scenario instance holds via the first disjunct. -/
theorem executedAndIdle_spec :
    (∀ (status : String) (isInProgress : Bool) (runCount : Int)
      (messages : List KernelOutputType) (runEndTime runStartTime : Int),
      executedAndIdle status isInProgress runCount messages runEndTime runStartTime = true ↔
        (STATUS_EXECUTED = status ∨
          (isInProgress = false ∧ runCount = 0 ∧ 1 ≤ messages.length) ∨
          (isInProgress = false ∧ 1 ≤ runCount ∧ runStartTime ≤ runEndTime))) ∧
    executedAndIdle STATUS_EXECUTED false 0 [] 0 0 = true := by
  constructor
  · intro status isInProgress runCount messages runEndTime runStartTime
    unfold executedAndIdle
    cases isInProgress <;> simp [or_assoc]
  · rfl

/-- A text-like fragment without the internal marker always classifies to its
AnsiText instruction. -/
lemma classifyFragment_textlike (t : DataTypeEnum) (first last : Bool) (d : String)
    (ht : t ∈ DATA_TYPE_TEXTLIKE) (hm : containsMarker d = false) :
    classifyFragment t first last d =
      Except.ok (some (RenderInstruction.AnsiText d first last)) := by
  have ht2 : t = DataTypeEnum.TEXT ∨ t = DataTypeEnum.TEXT_PLAIN := by
    simpa [DATA_TYPE_TEXTLIKE] using ht
  rcases ht2 with rfl | rfl <;> simp [classifyFragment, hm, DATA_TYPE_TEXTLIKE]

/-- Fragment classification of a text-like entry with unmarked fragments,
tracked from an arbitrary inner index. -/
lemma classifyFragments_textlike (t : DataTypeEnum) (N idx dl : Nat)
    (ht : t ∈ DATA_TYPE_TEXTLIKE) (l : List String) :
    ∀ (k : Nat), (∀ s ∈ l, containsMarker s = false) →
      classifyFragments t N idx dl k l =
        Except.ok ((l.enumFrom k).map (fun p =>
          RenderInstruction.AnsiText p.2 (decide (idx = 0) && decide (p.1 = 0))
            (decide ((idx : Int) = (N : Int) - 1) &&
              decide ((p.1 : Int) = (dl : Int) - 1)))) := by
  induction l with
  | nil => intro k _; simp [classifyFragments]
  | cons d rest ih =>
    intro k hm
    have hd : containsMarker d = false := hm d (by simp)
    have hrest : ∀ s ∈ rest, containsMarker s = false := fun s hs => hm s (by simp [hs])
    simp only [classifyFragments]
    rw [classifyFragment_textlike t _ _ d ht hd, ih (k + 1) hrest]
    simp [List.enumFrom]

/-- C7 counterexample: a display entry with the single non-empty fragment
`[__internal_output__]x` yields ZERO render instructions (the remainder after
stripping the marker is not JSON), so classification does not emit one
instruction per non-empty fragment. -/
theorem empty_fragment_claim_counterexample :
    classifyEntry 1 0 ⟨DataTypeEnum.TEXT,
      some (KData.arr ["", "[__internal_output__]x", ""])⟩ = Except.ok [] ∧
    ((dataToArray (some (KData.arr ["", "[__internal_output__]x", ""]))).filter
      (fun d => !(d == ""))).length = 1 := ⟨rfl, rfl⟩

/-- C7 amended: for a TEXT-LIKE display entry none of whose fragments
contains the internal marker, classification emits exactly one AnsiText
instruction per non-empty fragment (in order, empty fragments filtered out),
and an entry with a missing payload, an empty-string payload, or an
empty-array payload yields zero render instructions whatever its type. -/
theorem empty_fragment_filtering (N idx : Nat) (t : DataTypeEnum) (l : List String)
    (ht : t ∈ DATA_TYPE_TEXTLIKE)
    (hm : ∀ s ∈ l, containsMarker s = false) :
    classifyEntry N idx ⟨t, some (KData.arr l)⟩ =
      Except.ok (((l.filter (fun d => !(d == ""))).enum).map (fun p =>
        RenderInstruction.AnsiText p.2 (decide (idx = 0) && decide (p.1 = 0))
          (decide ((idx : Int) = (N : Int) - 1) &&
            decide ((p.1 : Int) = (((l.filter (fun d => !(d == ""))).length : Int)) - 1)))) ∧
    (∀ t2 : DataTypeEnum,
      classifyEntry N idx ⟨t2, none⟩ = Except.ok [] ∧
      classifyEntry N idx ⟨t2, some (KData.str "")⟩ = Except.ok [] ∧
      classifyEntry N idx ⟨t2, some (KData.arr [])⟩ = Except.ok []) := by
  constructor
  · by_cases hl : l = []
    · subst hl; simp [classifyEntry, skipEntryData]
    · have hskip : skipEntryData (some (KData.arr l)) = false := by
        simp [skipEntryData, hl]
      have hfrag := classifyFragments_textlike t N idx
        ((l.filter (fun d => !(d == ""))).length) ht (l.filter (fun d => !(d == ""))) 0
        (fun s hs => hm s (List.mem_of_mem_filter hs))
      simpa [classifyEntry, hskip, dataToArray, List.enum] using hfrag
  · intro t2
    exact ⟨rfl, rfl, rfl⟩

/-- C7 witness: the amended filtering law at the concrete payload from the
spec scenario, and at a missing payload. -/
theorem empty_fragment_filtering_witness :
    classifyEntry 1 0 ⟨DataTypeEnum.TEXT, some (KData.arr ["", "x", ""])⟩ =
      Except.ok [RenderInstruction.AnsiText "x" true true] ∧
    classifyEntry 1 0 ⟨DataTypeEnum.TEXT, none⟩ = Except.ok [] := by
  have h := empty_fragment_filtering 1 0 DataTypeEnum.TEXT ["", "x", ""]
    (by decide) (by decide)
  exact ⟨h.1, (h.2 DataTypeEnum.TEXT).1⟩

/-- A DataTable element is produced only with a length-bearing `rows` value
of length at least one. -/
lemma createDataTableBody_rows (j : Json) (c i : Option Json) (r : Json)
    (h : createDataTableBody j = Except.ok (some (RenderInstruction.Table c i r))) :
    ∃ n, jsLength r = Except.ok (some n) ∧ 1 ≤ n := by
  unfold createDataTableBody at h
  split at h
  · exact absurd h (by simp)
  · split at h
    · simp at h
    · exact absurd h (by simp)
    · rename_i rows hrows n hlen
      split at h
      · rename_i hn
        simp only [Except.ok.injEq, Option.some.injEq,
          RenderInstruction.Table.injEq] at h
        obtain ⟨-, -, hr⟩ := h
        subst hr
        exact ⟨n, hlen, hn⟩
      · exact absurd h (by simp)

lemma createDataTableElement_rows (x : Option Json) (c i : Option Json) (r : Json)
    (h : createDataTableElement x = Except.ok (some (RenderInstruction.Table c i r))) :
    ∃ n, jsLength r = Except.ok (some n) ∧ 1 ≤ n := by
  cases x with
  | none => simp [createDataTableElement] at h
  | some j =>
    cases j with
    | null => simp [createDataTableElement] at h
    | bool b =>
      simp only [createDataTableElement] at h
      exact createDataTableBody_rows _ _ _ _ h
    | num n =>
      simp only [createDataTableElement] at h
      exact createDataTableBody_rows _ _ _ _ h
    | str s =>
      simp only [createDataTableElement] at h
      exact createDataTableBody_rows _ _ _ _ h
    | arr elems =>
      simp only [createDataTableElement] at h
      exact createDataTableBody_rows _ _ _ _ h
    | obj fields =>
      simp only [createDataTableElement] at h
      exact createDataTableBody_rows _ _ _ _ h

/-- C10: whenever fragment classification emits a Table instruction (either
through the internal-marker unwrap path or the `table` outputType path), the
`rows` value it carries has length at least one; a table payload whose rows
list is empty produces no render instruction. -/
theorem table_rows_nonempty (t : DataTypeEnum) (first last : Bool) (data : String)
    (c i : Option Json) (r : Json)
    (h : classifyFragment t first last data =
      Except.ok (some (RenderInstruction.Table c i r))) :
    (∃ n, jsLength r = Except.ok (some n) ∧ 1 ≤ n) ∧
    classifyFragment DataTypeEnum.TEXT false false tablePayloadZeroRows =
      Except.ok none ∧
    classifyFragment DataTypeEnum.TABLE false false "\x7b\"rows\":[]\x7d" =
      Except.ok none := by
  refine ⟨?_, rfl, rfl⟩
  unfold classifyFragment at h
  split at h
  · -- internal-marker unwrap path
    split at h
    · split at h
      · simp at h
      · split at h
        · exact createDataTableElement_rows _ _ _ _ h
        · exact absurd h (by simp)
      · simp at h
    · exact absurd h (by simp)
  · split at h
    · -- outputType table path
      split at h
      · split at h
        · exact createDataTableElement_rows _ _ _ _ h
        · simp at h
      · exact createDataTableElement_rows _ _ _ _ h
    · split at h
      · simp at h
      · split at h
        · exact absurd h (by simp)
        · simp at h

/-- C10 witness: the table-rows law at a concrete tagged table payload that
does emit a Table instruction. -/
theorem table_rows_nonempty_witness :
    (∃ n, jsLength (Json.arr [Json.arr [Json.str "a", Json.str "b"]]) =
      Except.ok (some n) ∧ 1 ≤ n) ∧
    classifyFragment DataTypeEnum.TEXT false false tablePayloadZeroRows =
      Except.ok none ∧
    classifyFragment DataTypeEnum.TABLE false false "\x7b\"rows\":[]\x7d" =
      Except.ok none :=
  table_rows_nonempty DataTypeEnum.TEXT false false tablePayloadObj none none
    (Json.arr [Json.arr [Json.str "a", Json.str "b"]]) (by rfl)

/-- The display entry of one (head, rest) group. -/
def entryOf (g : KernelOutputType × List KernelOutputType) : KernelOutputType :=
  entryOfGroup g.1 g.2

lemma flattenGroups_append (a b : List (KernelOutputType × List KernelOutputType)) :
    flattenGroups (a ++ b) = flattenGroups a ++ flattenGroups b := by
  simp [flattenGroups]

/-- A true `condLast` forces the current message itself to be text-like. -/
lemma condLast_imp_condCurr (o : Option DataTypeEnum) (t : DataTypeEnum)
    (h : (isTextLikeOpt o && decide (o = some t)) = true) :
    decide (t ∈ DATA_TYPE_TEXTLIKE) = true := by
  have h2 : isTextLikeOpt o = true ∧ o = some t := by simpa using h
  obtain ⟨h1, rfl⟩ := h2
  simpa [isTextLikeOpt] using h1

/-- Reassemble the Boolean `condLast` of the reduce from its pieces. -/
lemma condLast_of_parts (gs : List (KernelOutputType × List KernelOutputType))
    (m x : KernelOutputType) (r : List KernelOutputType)
    (hgl : gs.getLast? = some (x, r))
    (h1 : isTextLikeOpt (Option.map (KernelOutputType.type ∘ entryOf) gs.getLast?) = true)
    (htyp : (entryOf (x, r)).type = m.type) :
    (isTextLikeOpt (((gs.map entryOf).getLast?).map KernelOutputType.type) &&
      decide (((gs.map entryOf).getLast?).map KernelOutputType.type = some m.type)) = true := by
  rw [List.getLast?_map, hgl]
  rw [hgl] at h1
  simp at h1
  rw [htyp] at h1
  simp [htyp, h1]

/-- One reduce step sends an accumulator described by groups to an
accumulator described by groups, the new message extending the last group
(merge) or opening a fresh one (push). -/
lemma aggStep_partition (gs : List (KernelOutputType × List KernelOutputType))
    (m : KernelOutputType) :
    (∃ e, aggStep (gs.map entryOf) m = Except.error e) ∨
    (∃ gs2, aggStep (gs.map entryOf) m = Except.ok (gs2.map entryOf) ∧
      flattenGroups gs2 = flattenGroups gs ++ [m]) := by
  by_cases hcC : m.type ∈ DATA_TYPE_TEXTLIKE
  · rcases hdata : combineTextData m.data with _ | s
    · -- text-like message with undefined data: the reduce throws
      refine Or.inl ⟨"TypeError: Cannot read properties of undefined", ?_⟩
      simp [aggStep, hcC, hdata]
    · by_cases hmk : containsMarker s = true
      · -- tagged message: pushed as a plain copy
        refine Or.inr ⟨gs ++ [(m, [])], ?_, ?_⟩
        · have hinit : entryOf (m, []) = m := by
            simp [entryOf, entryOfGroup, initEntry, hdata, hmk]
          simp [aggStep, hcC, hdata, hmk, hinit]
        · simp [flattenGroups_append, flattenGroups]
      · rw [Bool.not_eq_true] at hmk
        by_cases hcL : (isTextLikeOpt (((gs.map entryOf).getLast?).map KernelOutputType.type) &&
            decide (((gs.map entryOf).getLast?).map KernelOutputType.type = some m.type)) = true
        · -- merge into the last group
          rcases List.eq_nil_or_concat gs with rfl | ⟨gs0, g0, hgs⟩
          · simp [isTextLikeOpt] at hcL
          · subst hgs
            rw [List.concat_eq_append] at hcL ⊢
            have hlast : ((gs0 ++ [g0]).map entryOf).getLast? = some (entryOf g0) := by
              simp
            rw [hlast] at hcL
            have hparts : isTextLikeOpt (some ((entryOf g0).type)) = true ∧
                (entryOf g0).type = m.type := by
              simpa using hcL
            refine Or.inr ⟨gs0 ++ [(g0.1, g0.2 ++ [m])], ?_, ?_⟩
            · have hmerge : entryOf (g0.1, g0.2 ++ [m]) =
                  { entryOf g0 with data := some (jsPlusData (entryOf g0).data s) } := by
                simp [entryOf, entryOfGroup, List.foldl_append, mergeInto, hdata]
              have hmut : mutateLast ((gs0.map entryOf) ++ [entryOf g0]) s =
                  (gs0.map entryOf) ++
                    [{ entryOf g0 with data := some (jsPlusData (entryOf g0).data s) }] := by
                have hl2 : ((gs0.map entryOf) ++ [entryOf g0]).getLast? = some (entryOf g0) := by
                  simp
                simp [mutateLast, hl2]
              have hTL : isTextLikeOpt (some m.type) = true := hparts.2 ▸ hparts.1
              simp [aggStep, hlast, hTL, hparts.2, hdata, hmk, hmut, hmerge]
            · simp [flattenGroups_append, flattenGroups]
        · -- new text entry pushed with combined text
          rw [Bool.not_eq_true] at hcL
          refine Or.inr ⟨gs ++ [(m, [])], ?_, ?_⟩
          · have hinit : entryOf (m, []) = { m with data := some (KData.str s) } := by
              simp [entryOf, entryOfGroup, initEntry, hdata, hmk, hcC]
            simp [aggStep, hcC, hcL, hdata, hmk, hinit]
            intro h1 x r hgl htyp
            rw [condLast_of_parts gs m x r hgl h1 htyp] at hcL
            simp at hcL
          · simp [flattenGroups_append, flattenGroups]
  · -- non-text-like message: pushed as a plain copy, data untouched
    have hcL : (isTextLikeOpt (((gs.map entryOf).getLast?).map KernelOutputType.type) &&
        decide (((gs.map entryOf).getLast?).map KernelOutputType.type = some m.type)) = false := by
      by_contra hne
      rw [Bool.not_eq_false] at hne
      exact hcC (of_decide_eq_true (condLast_imp_condCurr _ _ hne))
    refine Or.inr ⟨gs ++ [(m, [])], ?_, ?_⟩
    · have hinit : entryOf (m, []) = m := by
        rcases hdata : combineTextData m.data with _ | s <;>
          simp [entryOf, entryOfGroup, initEntry, hdata, hcC]
      simp [aggStep, hcC, hcL, hinit]
      intro h1 x r hgl htyp
      rw [condLast_of_parts gs m x r hgl h1 htyp] at hcL
      simp at hcL
    · simp [flattenGroups_append, flattenGroups]

/-- The reduce loop preserves the group description of the accumulator. -/
lemma combinedMessagesAux_partition (msgs : List KernelOutputType) :
    ∀ (gs : List (KernelOutputType × List KernelOutputType)) (out : List KernelOutputType),
      combinedMessagesAux (gs.map entryOf) msgs = Except.ok out →
      ∃ gs2, flattenGroups gs2 = flattenGroups gs ++ msgs ∧ out = gs2.map entryOf := by
  induction msgs with
  | nil =>
    intro gs out h
    simp only [combinedMessagesAux, Except.ok.injEq] at h
    exact ⟨gs, by simp, h.symm⟩
  | cons m rest ih =>
    intro gs out h
    simp only [combinedMessagesAux] at h
    rcases aggStep_partition gs m with ⟨e, he⟩ | ⟨gs2, hok, hflat⟩
    · rw [he] at h
      simp at h
    · rw [hok] at h
      obtain ⟨gs3, h3, hout⟩ := ih gs2 out h
      refine ⟨gs3, ?_, hout⟩
      rw [h3, hflat, List.append_assoc]
      rfl

/-- C9: whenever aggregation succeeds, the input message sequence splits into
consecutive non-empty groups, in order, with exactly one display entry per
group: entry `i` is derived from group `i` (whose head is its first
contributing message), so entry order matches the receipt order of first
contributors and no message is dropped or duplicated. -/
theorem aggregate_order_preserving (msgs out : List KernelOutputType)
    (h : combinedMessages msgs = Except.ok out) :
    ∃ gs : List (KernelOutputType × List KernelOutputType),
      flattenGroups gs = msgs ∧ out = gs.map entryOf := by
  have h2 := combinedMessagesAux_partition msgs [] out
    (by simpa [combinedMessages] using h)
  simpa [flattenGroups] using h2

/-- C9 witness: the partition description at a concrete two-message input. -/
theorem aggregate_order_preserving_witness :
    ∃ gs : List (KernelOutputType × List KernelOutputType),
      flattenGroups gs = [⟨DataTypeEnum.TEXT, some (KData.str "a")⟩,
        ⟨DataTypeEnum.TEXT, some (KData.str "b")⟩] ∧
      [⟨DataTypeEnum.TEXT, some (KData.str "ab")⟩] = gs.map entryOf :=
  aggregate_order_preserving _ _ (by rfl)

lemma readCell_append_lt (st ext : Store) (k : Nat) (h : k < st.length) :
    readCell (st ++ ext) k = readCell st k := by
  simp [readCell, List.getD_eq_getElem?_getD, List.getElem?_append, h]

lemma readCell_append_self (st : Store) (v : KernelOutputType) :
    readCell (st ++ [v]) st.length = v := by
  simp [readCell, List.getD_eq_getElem?_getD,
    List.getElem?_append_right (Nat.le_refl st.length)]

lemma readCell_set_ne (st : Store) (j k : Nat) (v : KernelOutputType) (h : j ≠ k) :
    readCell (st.set j v) k = readCell st k := by
  simp [readCell, List.getD_eq_getElem?_getD, List.getElem?_set_ne h]

lemma readCell_set_self (st : Store) (j : Nat) (v : KernelOutputType) (h : j < st.length) :
    readCell (st.set j v) j = v := by
  simp [readCell, List.getD_eq_getElem?_getD, List.getElem?_set_self h]

/-- Invariant relating the heap-level reduce state to the pure accumulator:
the heap only grew, the region of the original heap is untouched, the
accumulator references dereference to the pure accumulator, and they are
strictly increasing fresh cells. -/
def StoreInv (st0 st : Store) (idxs : List Nat) (vals : List KernelOutputType) : Prop :=
  st0.length ≤ st.length ∧
  (∀ k, k < st0.length → readCell st k = readCell st0 k) ∧
  idxs.map (readCell st) = vals ∧
  List.Chain' (fun a b => a < b) idxs ∧
  (∀ j ∈ idxs, st0.length ≤ j ∧ j < st.length)

/-- Allocating a fresh cell at the end of the heap preserves the invariant. -/
lemma StoreInv_push (st0 st : Store) (idxs : List Nat) (vals : List KernelOutputType)
    (inv : StoreInv st0 st idxs vals) (v : KernelOutputType) :
    StoreInv st0 (st ++ [v]) (idxs ++ [st.length]) (vals ++ [v]) := by
  obtain ⟨hlen, hpre, hvals, hchain, hbounds⟩ := inv
  have hgrow : st0.length ≤ (st ++ [v]).length := by simp; omega
  refine ⟨hgrow, fun k hk => ?_, ?_, ?_, ?_⟩
  · rw [readCell_append_lt st [v] k (lt_of_lt_of_le hk hlen)]
    exact hpre k hk
  · rw [List.map_append, ← hvals]
    congr 1
    · exact List.map_congr_left
        (fun j hj => readCell_append_lt st [v] j (hbounds j hj).2)
    · simp [readCell_append_self]
  · rw [List.chain'_append]
    refine ⟨hchain, List.chain'_singleton _, ?_⟩
    intro x hx y hy
    simp at hy
    subst hy
    exact (hbounds x (List.mem_of_mem_getLast? hx)).2
  · intro j hj
    rcases List.mem_append.mp hj with hj | hj
    · obtain ⟨h1, h2⟩ := hbounds j hj
      exact ⟨h1, by simp; omega⟩
    · simp at hj
      subst hj
      exact ⟨hlen, by simp⟩

/-- Writing the cell the LAST accumulator reference points at preserves the
invariant, sending the pure accumulator to its mutated form. -/
lemma StoreInv_mutate (st0 st : Store) (idxs : List Nat) (vals : List KernelOutputType)
    (inv : StoreInv st0 st idxs vals) (j : Nat) (hj : idxs.getLast? = some j)
    (v : KernelOutputType) :
    StoreInv st0 (st.set j v) idxs (vals.dropLast ++ [v]) ∧
      vals.getLast? = some (readCell st j) := by
  obtain ⟨hlen, hpre, hvals, hchain, hbounds⟩ := inv
  have hjb := hbounds j (List.mem_of_mem_getLast? (by rw [hj]; rfl))
  rcases List.eq_nil_or_concat idxs with rfl | ⟨t, j2, hidxs⟩
  · simp at hj
  · rw [List.concat_eq_append] at hidxs
    have hj2 : j2 = j := by
      rw [hidxs, List.getLast?_concat] at hj
      exact Option.some_injective _ hj
    rw [hj2] at hidxs
    subst hidxs
    have hvals2 : vals = (t.map (readCell st)) ++ [readCell st j] := by
      rw [← hvals]; simp
    have htlt : ∀ x ∈ t, x < j := by
      have hp := (List.chain'_iff_pairwise.mp hchain)
      intro x hx
      exact (List.pairwise_append.mp hp).2.2 x hx j (by simp)
    refine ⟨⟨?_, ?_, ?_, hchain, ?_⟩, ?_⟩
    · simpa using hlen
    · intro k hk
      rw [readCell_set_ne st j k v (by omega)]
      exact hpre k hk
    · rw [List.map_append, hvals2, List.dropLast_concat]
      congr 1
      · exact List.map_congr_left
          (fun x hx => readCell_set_ne st j x v (Nat.ne_of_gt (htlt x hx)))
      · simp [readCell_set_self st j v hjb.2]
    · intro x hx
      rcases List.mem_append.mp hx with hx | hx
      · obtain ⟨h1, h2⟩ := hbounds x (List.mem_append.mpr (Or.inl hx))
        exact ⟨h1, by simpa using h2⟩
      · simp at hx
        subst hx
        exact ⟨hjb.1, by simpa using hjb.2⟩
    · rw [hvals2, List.getLast?_concat]

/-- One heap step agrees with one pure step and preserves the invariant. -/
lemma stepStore_spec (st0 st : Store) (idxs : List Nat) (vals : List KernelOutputType)
    (inv : StoreInv st0 st idxs vals) (i : Nat) :
    (aggStep vals (readCell st i) =
        Except.error "TypeError: Cannot read properties of undefined" ∧
      stepStore (st, idxs) i =
        Except.error "TypeError: Cannot read properties of undefined") ∨
    (∃ vals2 st2 idxs2, aggStep vals (readCell st i) = Except.ok vals2 ∧
      stepStore (st, idxs) i = Except.ok (st2, idxs2) ∧
      StoreInv st0 st2 idxs2 vals2) := by
  have hlast : vals.getLast? = (idxs.getLast?).map (readCell st) := by
    rw [← inv.2.2.1, List.getLast?_map]
  rcases hgl : idxs.getLast? with _ | j
  · -- empty accumulator: only push branches are reachable
    rw [hgl] at hlast
    simp only [Option.map_none'] at hlast
    by_cases hcC : (readCell st i).type ∈ DATA_TYPE_TEXTLIKE
    · rcases hdata : combineTextData (readCell st i).data with _ | s
      · exact Or.inl ⟨by simp [aggStep, hlast, hcC, hdata],
          by simp [stepStore, hgl, hcC, hdata]⟩
      · by_cases hmk : containsMarker s = true
        · refine Or.inr ⟨vals ++ [readCell st i], st ++ [readCell st i],
            idxs ++ [st.length], ?_, ?_, StoreInv_push st0 st idxs vals inv _⟩
          · simp [aggStep, hlast, hcC, hdata, hmk]
          · simp [stepStore, hgl, hcC, hdata, hmk]
        · rw [Bool.not_eq_true] at hmk
          refine Or.inr ⟨vals ++ [{ readCell st i with data := some (KData.str s) }],
            st ++ [{ readCell st i with data := some (KData.str s) }],
            idxs ++ [st.length], ?_, ?_, StoreInv_push st0 st idxs vals inv _⟩
          · simp [aggStep, hlast, hcC, hdata, hmk]
          · simp [stepStore, hgl, hcC, hdata, hmk]
    · refine Or.inr ⟨vals ++ [readCell st i], st ++ [readCell st i],
        idxs ++ [st.length], ?_, ?_, StoreInv_push st0 st idxs vals inv _⟩
      · simp [aggStep, hlast, hcC]
      · simp [stepStore, hgl, hcC]
  · -- the accumulator has a last entry, in cell j
    rw [hgl] at hlast
    simp only [Option.map_some'] at hlast
    by_cases hcl : isTextLikeOpt (some ((readCell st j).type)) = true ∧
        (readCell st j).type = (readCell st i).type
    · have hcC : (readCell st i).type ∈ DATA_TYPE_TEXTLIKE := by
        have := hcl.1
        rw [hcl.2] at this
        simpa [isTextLikeOpt] using this
      have hTLi : isTextLikeOpt (some ((readCell st i).type)) = true := by
        rw [← hcl.2]; exact hcl.1
      rcases hdata : combineTextData (readCell st i).data with _ | s
      · exact Or.inl ⟨by simp [aggStep, hlast, hcC, hdata],
          by simp [stepStore, hgl, hcC, hdata]⟩
      · by_cases hmk : containsMarker s = true
        · refine Or.inr ⟨vals ++ [readCell st i], st ++ [readCell st i],
            idxs ++ [st.length], ?_, ?_, StoreInv_push st0 st idxs vals inv _⟩
          · simp [aggStep, hlast, hcC, hdata, hmk]
          · simp [stepStore, hgl, hcC, hdata, hmk]
        · -- the merge branch
          rw [Bool.not_eq_true] at hmk
          obtain ⟨inv2, hlastv⟩ := StoreInv_mutate st0 st idxs vals inv j hgl
            { readCell st j with data := some (jsPlusData (readCell st j).data s) }
          have hml : mutateLast vals s = vals.dropLast ++
              [{ readCell st j with data := some (jsPlusData (readCell st j).data s) }] := by
            unfold mutateLast
            rw [hlastv]
          refine Or.inr ⟨vals.dropLast ++
              [{ readCell st j with data := some (jsPlusData (readCell st j).data s) }],
            st.set j { readCell st j with data := some (jsPlusData (readCell st j).data s) },
            idxs, ?_, ?_, inv2⟩
          · simp [aggStep, hlast, hTLi, hcl.2, hdata, hmk, hml]
          · simp [stepStore, hgl, hTLi, hcl.2, hdata, hmk]
    · -- no merge possible
      by_cases hcC : (readCell st i).type ∈ DATA_TYPE_TEXTLIKE
      · rcases hdata : combineTextData (readCell st i).data with _ | s
        · exact Or.inl ⟨by simp [aggStep, hlast, hcC, hdata],
            by simp [stepStore, hgl, hcC, hdata]⟩
        · by_cases hmk : containsMarker s = true
          · refine Or.inr ⟨vals ++ [readCell st i], st ++ [readCell st i],
              idxs ++ [st.length], ?_, ?_, StoreInv_push st0 st idxs vals inv _⟩
            · simp [aggStep, hlast, hcC, hdata, hmk, hcl]
            · simp [stepStore, hgl, hcC, hdata, hmk, hcl]
          · rw [Bool.not_eq_true] at hmk
            refine Or.inr ⟨vals ++ [{ readCell st i with data := some (KData.str s) }],
              st ++ [{ readCell st i with data := some (KData.str s) }],
              idxs ++ [st.length], ?_, ?_, StoreInv_push st0 st idxs vals inv _⟩
            · simp [aggStep, hlast, hcC, hdata, hmk, hcl]
            · simp [stepStore, hgl, hcC, hdata, hmk, hcl]
      · refine Or.inr ⟨vals ++ [readCell st i], st ++ [readCell st i],
          idxs ++ [st.length], ?_, ?_, StoreInv_push st0 st idxs vals inv _⟩
        · simp [aggStep, hlast, hcC, hcl]
        · simp [stepStore, hgl, hcC, hcl]

/-- The heap reduce loop agrees with the pure reduce loop: it produces the
same error, or an accumulator dereferencing to the pure result while
preserving the invariant. -/
lemma runStoreAux_spec (ids : List Nat) :
    ∀ (st0 st : Store) (idxs : List Nat) (vals : List KernelOutputType),
      StoreInv st0 st idxs vals →
      (∀ i ∈ ids, i < st0.length) →
      ((∃ e, combinedMessagesAux vals (ids.map (readCell st0)) = Except.error e ∧
          runStoreAux (st, idxs) ids = Except.error e) ∨
        (∃ vals2 st2 idxs2,
          combinedMessagesAux vals (ids.map (readCell st0)) = Except.ok vals2 ∧
          runStoreAux (st, idxs) ids = Except.ok (st2, idxs2) ∧
          StoreInv st0 st2 idxs2 vals2)) := by
  induction ids with
  | nil =>
    intro st0 st idxs vals inv hvalid
    exact Or.inr ⟨vals, st, idxs, rfl, rfl, inv⟩
  | cons i rest ih =>
    intro st0 st idxs vals inv hvalid
    have hi : i < st0.length := hvalid i (by simp)
    have hcurr : readCell st i = readCell st0 i := inv.2.1 i hi
    rcases stepStore_spec st0 st idxs vals inv i with ⟨ha, hs⟩ |
      ⟨vals2, st2, idxs2, ha, hs, inv2⟩
    · refine Or.inl ⟨"TypeError: Cannot read properties of undefined", ?_, ?_⟩
      · simp only [List.map_cons, combinedMessagesAux]
        rw [← hcurr, ha]
      · simp only [runStoreAux]
        rw [hs]
    · rcases ih st0 st2 idxs2 vals2 inv2 (fun x hx => hvalid x (by simp [hx])) with
        ⟨e, he1, he2⟩ | ⟨vals3, st3, idxs3, h1, h2, inv3⟩
      · refine Or.inl ⟨e, ?_, ?_⟩
        · simp only [List.map_cons, combinedMessagesAux]
          rw [← hcurr, ha]
          exact he1
        · simp only [runStoreAux]
          rw [hs]
          exact he2
      · refine Or.inr ⟨vals3, st3, idxs3, ?_, ?_, inv3⟩
        · simp only [List.map_cons, combinedMessagesAux]
          rw [← hcurr, ha]
          exact h1
        · simp only [runStoreAux]
          rw [hs]
          exact h2

/-- The pure reduce never fails on messages whose `data` is present. -/
lemma combinedMessagesAux_ok (msgs : List KernelOutputType)
    (hdata : ∀ m ∈ msgs, m.data.isSome = true) :
    ∀ acc, ∃ out, combinedMessagesAux acc msgs = Except.ok out := by
  induction msgs with
  | nil => intro acc; exact ⟨acc, rfl⟩
  | cons m rest ih =>
    intro acc
    have hm : m.data.isSome = true := hdata m (by simp)
    have hstep : ∃ acc2, aggStep acc m = Except.ok acc2 := by
      rcases hd : m.data with _ | d
      · rw [hd] at hm
        simp at hm
      · unfold aggStep
        rw [hd]
        simp only [combineTextData]
        split
        · split
          · exact ⟨_, rfl⟩
          · split <;> exact ⟨_, rfl⟩
        · exact ⟨_, rfl⟩
    obtain ⟨acc2, hstep⟩ := hstep
    obtain ⟨out, hout⟩ := ih (fun x hx => hdata x (by simp [hx])) acc2
    refine ⟨out, ?_⟩
    simp only [combinedMessagesAux]
    rw [hstep]
    exact hout

/-- C6: running the reduce twice over the same message references yields
content-equal results.  The heap-level reduce never writes any cell of the
original heap (the input messages are not mutated: every push copies), so a
second run over the same references reads identical inputs and produces an
identical display-entry sequence, equal to the pure `combinedMessages` of
the input values. -/
theorem aggregate_rerun_identical (st : Store) (ids : List Nat)
    (hvalid : ∀ i ∈ ids, i < st.length)
    (hdata : ∀ i ∈ ids, (readCell st i).data.isSome = true) :
    ∃ st1 out1 st2 out2,
      runStore st ids = Except.ok (st1, out1) ∧
      (∀ k, k < st.length → readCell st1 k = readCell st k) ∧
      runStore st1 ids = Except.ok (st2, out2) ∧
      out2.map (readCell st2) = out1.map (readCell st1) ∧
      combinedMessages (ids.map (readCell st)) =
        Except.ok (out1.map (readCell st1)) := by
  obtain ⟨out, hout⟩ := combinedMessagesAux_ok (ids.map (readCell st))
    (by
      intro m hm
      obtain ⟨i, hi, rfl⟩ := List.mem_map.mp hm
      exact hdata i hi) []
  have inv0 : StoreInv st st [] [] :=
    ⟨Nat.le_refl _, fun k _ => rfl, rfl, List.chain'_nil, by simp⟩
  rcases runStoreAux_spec ids st st [] [] inv0 hvalid with ⟨e, he1, he2⟩ |
    ⟨vals1, st1, idxs1, h1, h2, inv1⟩
  · rw [hout] at he1
    cases he1
  · have hv1 : vals1 = out := by
      rw [hout] at h1
      injection h1 with h
      exact h.symm
    have hpre1 : ∀ k, k < st.length → readCell st1 k = readCell st k := inv1.2.1
    have hvalid1 : ∀ i ∈ ids, i < st1.length :=
      fun i hi => lt_of_lt_of_le (hvalid i hi) inv1.1
    have hsame : ids.map (readCell st1) = ids.map (readCell st) :=
      List.map_congr_left (fun i hi => hpre1 i (hvalid i hi))
    have inv0a : StoreInv st1 st1 [] [] :=
      ⟨Nat.le_refl _, fun k _ => rfl, rfl, List.chain'_nil, by simp⟩
    rcases runStoreAux_spec ids st1 st1 [] [] inv0a hvalid1 with ⟨e, ge1, ge2⟩ |
      ⟨vals2, st2, idxs2, g1, g2, inv2⟩
    · rw [hsame, hout] at ge1
      cases ge1
    · have hv2 : vals2 = out := by
        rw [hsame, hout] at g1
        injection g1 with h
        exact h.symm
      refine ⟨st1, idxs1, st2, idxs2, h2, hpre1, g2, ?_, ?_⟩
      · rw [inv2.2.2.1, inv1.2.2.1, hv1, hv2]
      · rw [inv1.2.2.1, hv1]
        exact hout

/-- C6 witness: the rerun law at a concrete one-message heap. -/
theorem aggregate_rerun_identical_witness :
    ∃ st1 out1 st2 out2,
      runStore [⟨DataTypeEnum.TEXT, some (KData.str "a")⟩] [0] =
        Except.ok (st1, out1) ∧
      (∀ k, k < (([⟨DataTypeEnum.TEXT, some (KData.str "a")⟩] : Store)).length →
        readCell st1 k = readCell [⟨DataTypeEnum.TEXT, some (KData.str "a")⟩] k) ∧
      runStore st1 [0] = Except.ok (st2, out2) ∧
      out2.map (readCell st2) = out1.map (readCell st1) ∧
      combinedMessages ([0].map (readCell [⟨DataTypeEnum.TEXT, some (KData.str "a")⟩])) =
        Except.ok (out1.map (readCell st1)) :=
  aggregate_rerun_identical [⟨DataTypeEnum.TEXT, some (KData.str "a")⟩] [0]
    (by decide) (by decide)

/-- C8: on the empty message sequence the aggregation and the classification
both yield empty sequences without failing, but the component body also
evaluates `messages[0].type` (line 310), which raises a TypeError when there
are zero messages. -/
theorem empty_messages_pipeline :
    primaryDataType [] = Except.error "TypeError: Cannot read properties of undefined" ∧
    combinedMessages [] = Except.ok [] ∧
    classifyAll [] = Except.ok [] := ⟨rfl, rfl, rfl⟩
